import Mathlib

/-!
Verification of the south-bound-plugin-athens translation core.

Shallow embedding of:
  * `src/app/utils/eaas2camara_builder.py` (identifier sanitizers, resource
    aggregation, network-interface derivation, manifest assembly),
  * `src/app/utils/descriptor_builders.py` (reference-graph resolution),
  * `src/app/utils/token_manager.py` (credential cache),
  * `map_camara_status_to_state` from `src/app/routers/eaas_router.py`.

Python strings are modelled as `String` / `List Char`, numeric resource
figures as `Int`, absent or None-able fields as `Option`, and fallible code
as `Except`.
-/

namespace SouthBound

/-! ## Identifier sanitizers (`eaas2camara_builder.py`, lines 10-88)

The four sanitizers share the regex alphabet `[A-Za-z0-9_]` and the pipeline
"replace bad chars, force letter head, pad to the minimum, truncate to the
maximum, re-validate".  `matchesPat lo hi` is the Lean rendering of the
pattern `^[A-Za-z][A-Za-z0-9_]{lo-1,hi-1}$`, i.e. total length in `lo..hi`.
-/

/-- Membership in `[A-Za-z]`. -/
def isAsciiLetter (c : Char) : Bool :=
  ('A' ≤ c && c ≤ 'Z') || ('a' ≤ c && c ≤ 'z')

/-- Membership in `[A-Za-z0-9_]`, the class kept by `re.sub` in every
sanitizer. -/
def isWordChar (c : Char) : Bool :=
  isAsciiLetter c || ('0' ≤ c && c ≤ '9') || c = '_'

/-- One character of `re.sub(r'[^A-Za-z0-9_]', '_', raw)`. -/
def sanitizeChar (c : Char) : Char :=
  if isWordChar c then c else '_'

/-- `re.match(r'^[A-Za-z]', s)` as a Bool. -/
def headIsLetter : List Char → Bool
  | [] => false
  | c :: _ => isAsciiLetter c

/-- The anchored pattern `^[A-Za-z][A-Za-z0-9_]{lo-1,hi-1}$`: a letter head,
word-character tail, and total length between `lo` and `hi`. -/
def matchesPat (lo hi : Nat) : List Char → Bool
  | [] => false
  | c :: cs =>
      isAsciiLetter c && cs.all isWordChar &&
        decide (lo ≤ cs.length + 1) && decide (cs.length + 1 ≤ hi)

/-- The "ensure starts with a letter" step: prepend `pre` when the head is
not a letter (`'A' + s`, `"P_" + s`, `"i_" + s` in the Python code). -/
def forceHead (pre : List Char) (s : List Char) : List Char :=
  if headIsLetter s then s else pre ++ s

/-- The two length steps of each sanitizer: pad with `sfx` when shorter than
`lo`, truncate when longer than `hi`. -/
def fitLength (lo hi : Nat) (sfx : List Char) (s : List Char) : List Char :=
  let s3 := if s.length < lo then s ++ sfx else s
  if s3.length > hi then s3.take hi else s3

/-- `_sanitize_app_name` up to (and excluding) its final regex re-check. -/
def appNameCandidate (raw : List Char) : List Char :=
  fitLength 2 64 "_1".data (forceHead ['A'] (raw.map sanitizeChar))

/-- `_sanitize_app_name`, on `List Char`. -/
def sanitizeAppNameL (raw : List Char) : List Char :=
  if raw = [] then "App_1".data
  else if matchesPat 2 64 (appNameCandidate raw) then appNameCandidate raw
  else "App_".data ++ (appNameCandidate raw).take 60

/-- `_sanitize_app_provider` up to (and excluding) its final regex re-check;
an empty input is first replaced by the fixed default. -/
def providerCandidate (raw0 : List Char) : List Char :=
  fitLength 8 64 "_provider".data
    (forceHead "P_".data
      ((if raw0 = [] then "Provider_00000000".data else raw0).map sanitizeChar))

/-- `_sanitize_app_provider`, on `List Char`. -/
def sanitizeAppProviderL (raw0 : List Char) : List Char :=
  if matchesPat 8 64 (providerCandidate raw0) then providerCandidate raw0
  else "Provider_".data ++ ((providerCandidate raw0).map sanitizeChar).take 55

/-- `_sanitize_interface_id` up to (and excluding) its final regex re-check;
an empty input is first replaced by `"eth0"`. -/
def interfaceIdCandidate (raw0 : List Char) : List Char :=
  fitLength 4 32 "_eth".data
    (forceHead "i_".data
      ((if raw0 = [] then "eth0".data else raw0).map sanitizeChar))

/-- `_sanitize_interface_id`, on `List Char`. -/
def sanitizeInterfaceIdL (raw0 : List Char) : List Char :=
  if matchesPat 4 32 (interfaceIdCandidate raw0) then interfaceIdCandidate raw0
  else "if_".data ++ (interfaceIdCandidate raw0).take 30

/-- `_sanitize_app_name` on `String`. -/
def sanitizeAppName (raw : String) : String :=
  ⟨sanitizeAppNameL raw.data⟩

/-- `_sanitize_app_provider` on `String`. -/
def sanitizeAppProvider (raw : String) : String :=
  ⟨sanitizeAppProviderL raw.data⟩

/-- `_sanitize_interface_id` on `String`. -/
def sanitizeInterfaceId (raw : String) : String :=
  ⟨sanitizeInterfaceIdL raw.data⟩

/-- `_sanitize_component_name`: reuses the app-name rules. -/
def sanitizeComponentName (raw : String) : String :=
  sanitizeAppName raw

/-- The target grammar on `String`s: `^[A-Za-z][A-Za-z0-9_]{lo-1,hi-1}$`. -/
def matchesGrammar (lo hi : Nat) (s : String) : Bool :=
  matchesPat lo hi s.data

/-! ### Sanitizer grammar lemmas -/

theorem isWordChar_sanitizeChar (c : Char) : isWordChar (sanitizeChar c) = true := by
  unfold sanitizeChar
  by_cases h : isWordChar c = true
  · simp [h]
  · rw [if_neg h]
    decide

theorem all_word_of_map_sanitizeChar (raw : List Char) :
    ∀ x ∈ raw.map sanitizeChar, isWordChar x = true := by
  intro x hx
  rcases List.mem_map.mp hx with ⟨y, _, rfl⟩
  exact isWordChar_sanitizeChar y

theorem matchesPat_cons (lo hi : Nat) (c : Char) (t : List Char)
    (hc : isAsciiLetter c = true) (hw : ∀ x ∈ t, isWordChar x = true)
    (h1 : lo ≤ t.length + 1) (h2 : t.length + 1 ≤ hi) :
    matchesPat lo hi (c :: t) = true := by
  simp [matchesPat, hc, List.all_eq_true.mpr hw, h1, h2]

/-- After padding/truncation, a letter-headed word string fits the grammar:
the heart of the sanitizer guarantee. -/
theorem matchesPat_fitLength (lo hi : Nat) (sfx : List Char) (c : Char) (cs : List Char)
    (hc : isAsciiLetter c = true) (hw : ∀ x ∈ cs, isWordChar x = true)
    (hsfx : ∀ x ∈ sfx, isWordChar x = true)
    (hlo : 1 ≤ lo) (hpad : lo ≤ 1 + sfx.length) (hlohi : lo ≤ hi) :
    matchesPat lo hi (fitLength lo hi sfx (c :: cs)) = true := by
  obtain ⟨hi', rfl⟩ : ∃ k, hi = k + 1 := ⟨hi - 1, by omega⟩
  unfold fitLength
  by_cases h1 : (c :: cs).length < lo
  · rw [if_pos h1]
    have hcons : (c :: cs) ++ sfx = c :: (cs ++ sfx) := rfl
    rw [hcons]
    have hwapp : ∀ x ∈ cs ++ sfx, isWordChar x = true := by
      intro x hx
      rcases List.mem_append.mp hx with h | h
      · exact hw x h
      · exact hsfx x h
    by_cases h2 : (c :: (cs ++ sfx)).length > hi' + 1
    · rw [if_pos h2]
      rw [List.take_succ_cons]
      apply matchesPat_cons
      · exact hc
      · intro x hx
        exact hwapp x (List.take_subset _ _ hx)
      · simp only [List.length_take]
        simp only [List.length_cons, List.length_append] at h1 h2 ⊢
        omega
      · simp only [List.length_take]
        omega
    · rw [if_neg h2]
      apply matchesPat_cons
      · exact hc
      · exact hwapp
      · simp only [List.length_cons, List.length_append] at h1 ⊢
        omega
      · simp only [List.length_cons, List.length_append] at h2 ⊢
        omega
  · rw [if_neg h1]
    by_cases h2 : (c :: cs).length > hi' + 1
    · rw [if_pos h2]
      rw [List.take_succ_cons]
      apply matchesPat_cons
      · exact hc
      · intro x hx
        exact hw x (List.take_subset _ _ hx)
      · simp only [List.length_take]
        simp only [List.length_cons] at h1 h2 ⊢
        omega
      · simp only [List.length_take]
        omega
    · rw [if_neg h2]
      apply matchesPat_cons
      · exact hc
      · exact hw
      · simp only [List.length_cons] at h1 ⊢
        omega
      · simp only [List.length_cons] at h2 ⊢
        omega

theorem appNameCandidate_matches (raw : List Char) :
    matchesPat 2 64 (appNameCandidate raw) = true := by
  unfold appNameCandidate forceHead
  cases hs1 : raw.map sanitizeChar with
  | nil => decide
  | cons c cs =>
    have hall : ∀ x ∈ c :: cs, isWordChar x = true := by
      rw [← hs1]
      exact all_word_of_map_sanitizeChar raw
    have hcw : ∀ x ∈ cs, isWordChar x = true := fun x hx => hall x (List.mem_cons_of_mem c hx)
    by_cases hh : headIsLetter (c :: cs) = true
    · rw [if_pos hh]
      exact matchesPat_fitLength 2 64 _ c cs hh hcw (by decide) (by decide) (by decide) (by decide)
    · rw [if_neg hh]
      exact matchesPat_fitLength 2 64 _ 'A' (c :: cs) (by decide) hall (by decide) (by decide)
        (by decide) (by decide)

theorem sanitizeAppNameL_matches (raw : List Char) :
    matchesPat 2 64 (sanitizeAppNameL raw) = true := by
  unfold sanitizeAppNameL
  by_cases hraw : raw = []
  · rw [if_pos hraw]
    decide
  · rw [if_neg hraw, if_pos (appNameCandidate_matches raw)]
    exact appNameCandidate_matches raw

theorem providerCandidate_matches (raw0 : List Char) :
    matchesPat 8 64 (providerCandidate raw0) = true := by
  unfold providerCandidate forceHead
  by_cases hraw : raw0 = []
  · rw [if_pos hraw]
    decide
  · rw [if_neg hraw]
    cases hs1 : raw0.map sanitizeChar with
    | nil => decide
    | cons c cs =>
      have hall : ∀ x ∈ c :: cs, isWordChar x = true := by
        rw [← hs1]
        exact all_word_of_map_sanitizeChar raw0
      have hcw : ∀ x ∈ cs, isWordChar x = true := fun x hx => hall x (List.mem_cons_of_mem c hx)
      by_cases hh : headIsLetter (c :: cs) = true
      · rw [if_pos hh]
        exact matchesPat_fitLength 8 64 _ c cs hh hcw (by decide) (by decide) (by decide)
          (by decide)
      · rw [if_neg hh]
        have hall2 : ∀ x ∈ '_' :: c :: cs, isWordChar x = true := by
          intro x hx
          rcases List.mem_cons.mp hx with rfl | hx
          · decide
          · exact hall x hx
        exact matchesPat_fitLength 8 64 _ 'P' ('_' :: c :: cs) (by decide) hall2 (by decide)
          (by decide) (by decide) (by decide)

theorem sanitizeAppProviderL_matches (raw0 : List Char) :
    matchesPat 8 64 (sanitizeAppProviderL raw0) = true := by
  unfold sanitizeAppProviderL
  rw [if_pos (providerCandidate_matches raw0)]
  exact providerCandidate_matches raw0

theorem interfaceIdCandidate_matches (raw0 : List Char) :
    matchesPat 4 32 (interfaceIdCandidate raw0) = true := by
  unfold interfaceIdCandidate forceHead
  by_cases hraw : raw0 = []
  · rw [if_pos hraw]
    decide
  · rw [if_neg hraw]
    cases hs1 : raw0.map sanitizeChar with
    | nil => decide
    | cons c cs =>
      have hall : ∀ x ∈ c :: cs, isWordChar x = true := by
        rw [← hs1]
        exact all_word_of_map_sanitizeChar raw0
      have hcw : ∀ x ∈ cs, isWordChar x = true := fun x hx => hall x (List.mem_cons_of_mem c hx)
      by_cases hh : headIsLetter (c :: cs) = true
      · rw [if_pos hh]
        exact matchesPat_fitLength 4 32 _ c cs hh hcw (by decide) (by decide) (by decide)
          (by decide)
      · rw [if_neg hh]
        have hall2 : ∀ x ∈ '_' :: c :: cs, isWordChar x = true := by
          intro x hx
          rcases List.mem_cons.mp hx with rfl | hx
          · decide
          · exact hall x hx
        exact matchesPat_fitLength 4 32 _ 'i' ('_' :: c :: cs) (by decide) hall2 (by decide)
          (by decide) (by decide) (by decide)

theorem sanitizeInterfaceIdL_matches (raw0 : List Char) :
    matchesPat 4 32 (sanitizeInterfaceIdL raw0) = true := by
  unfold sanitizeInterfaceIdL
  rw [if_pos (interfaceIdCandidate_matches raw0)]
  exact interfaceIdCandidate_matches raw0

/-- C2: for every input string, including the empty string, each of the four
sanitizers returns a string matching its target grammar
`^[A-Za-z][A-Za-z0-9_]{min,max}$` with its component-specific bounds: app
name total length 2..64, provider name 8..64, interface id 4..32, component
name the same as the app name. -/
theorem sanitizers_always_match_grammar (s : String) :
    matchesGrammar 2 64 (sanitizeAppName s) = true ∧
    matchesGrammar 8 64 (sanitizeAppProvider s) = true ∧
    matchesGrammar 4 32 (sanitizeInterfaceId s) = true ∧
    matchesGrammar 2 64 (sanitizeComponentName s) = true :=
  ⟨sanitizeAppNameL_matches s.data, sanitizeAppProviderL_matches s.data,
    sanitizeInterfaceIdL_matches s.data, sanitizeAppNameL_matches s.data⟩

/-! ## Data model (`app/models/eaas_models.py` wire shapes, as used by
`descriptor_builders.py` and `eaas2camara_builder.py`)

The pydantic model classes live in `app/models/`, outside `src/`; their
field shapes are taken from how the code under `src/` reads and writes them
(`Option` for None-able fields, `Int` for numeric resource figures). -/

/-- A software image: identifier plus registry metadata (read via `img.id`,
`getattr(img, "swImage")`, `getattr(img, "name")`, `getattr(img, "version")`). -/
structure SwImageDesc where
  id : String
  swImage : Option String
  name : Option String
  version : Option String
deriving DecidableEq, Repr

/-- An `osContainerDesc` entry as sent on the wire: its `swImageDesc` key is
an image identifier string (or absent). -/
structure RawOsContainer where
  osContainerDescId : String
  requestedCpuResources : Option Int
  cpuResourceLimit : Option Int
  requestedMemoryResource : Option Int
  memoryResourceLimit : Option Int
  swImageDesc : Option String
deriving DecidableEq, Repr

/-- A resolved container: after resolution `swImageDesc` holds the looked-up
`SwImageDesc` object, or `none` when the identifier was unknown or absent. -/
structure OsContainerDesc where
  osContainerDescId : String
  requestedCpuResources : Option Int
  cpuResourceLimit : Option Int
  requestedMemoryResource : Option Int
  memoryResourceLimit : Option Int
  swImageDesc : Option SwImageDesc
deriving DecidableEq, Repr

/-- A `vdu` entry as sent on the wire: `osContainerDesc` is a list of
container identifier strings. -/
structure RawVDU where
  vduId : String
  name : Option String
  osContainerDesc : List String
deriving DecidableEq, Repr

/-- A resolved VDU: its container identifiers replaced with the looked-up
`OsContainerDesc` objects. -/
structure VDU where
  vduId : String
  name : Option String
  osContainerDesc : List OsContainerDesc
deriving DecidableEq, Repr

/-- One port binding (`pd` in the builder loop). -/
structure PortData where
  name : Option String
  protocol : Option String
  port : Int
deriving DecidableEq, Repr

/-- `additionalServiceData` entry: carries the port bindings. -/
structure AdditionalServiceData where
  portData : Option (List PortData)
deriving DecidableEq, Repr

/-- A virtual connection point: the `vdu` field lists owning VDU ids. -/
structure VirtualCpd where
  cpdId : String
  vdu : Option (List String)
  additionalServiceData : Option (List AdditionalServiceData)
deriving DecidableEq, Repr

/-- An external connection point (resolved independently; no field of it is
read by the translation core). -/
structure AppExtCpd where
  cpdId : String
deriving DecidableEq, Repr

/-- A deployment flavour after the `istantiationLevel` alias fix. -/
structure DeploymentFlavour where
  flavourId : String
  instantiationLevel : Option String
deriving DecidableEq, Repr

/-- A `deploymentFlavour` entry as sent on the wire, which may spell the
instantiation level field as `istantiationLevel`. -/
structure RawDeploymentFlavour where
  flavourId : String
  istantiationLevel : Option String
  instantiationLevel : Option String
deriving DecidableEq, Repr

/-- The raw Application-Repository payload: a mapping whose keys may each be
absent (`none` models a missing dictionary key). -/
structure RawPayload where
  appDescriptorId : Option String
  appDescriptorExtInvariantId : Option String
  appProvider : Option String
  appProductName : Option String
  appSoftwareVersion : Option String
  appDescriptorVersion : Option String
  appmInfo : Option String
  swImageDesc : Option (List SwImageDesc)
  osContainerDesc : Option (List RawOsContainer)
  vdu : Option (List RawVDU)
  appExtCpd : Option (List AppExtCpd)
  virtualCpd : Option (List VirtualCpd)
  deploymentFlavour : Option (List RawDeploymentFlavour)
deriving DecidableEq, Repr

/-- The fully resolved descriptor (`AppDescriptor` pydantic model). -/
structure AppDescriptor where
  appDescriptorId : String
  appDescriptorExtInvariantId : String
  appProvider : String
  appProductName : String
  appSoftwareVersion : String
  appDescriptorVersion : String
  appmInfo : Option String
  swImageDesc : Option (List SwImageDesc)
  vdu : Option (List VDU)
  deploymentFlavour : Option (List DeploymentFlavour)
  appExtCpd : Option (List AppExtCpd)
  virtualCpd : Option (List VirtualCpd)
deriving DecidableEq, Repr

/-! ## Reference-graph resolver (`descriptor_builders.py`) -/

/-- `payload["field"]` raising `KeyError` when absent; the spec's
`SchemaError`. -/
inductive SchemaError where
  | missingField (field : String)
deriving DecidableEq, Repr

/-- Required-field access `payload["k"]`. -/
def requireField {α : Type} (k : String) : Option α → Except SchemaError α
  | some v => .ok v
  | none => .error (.missingField k)

/-- The dict comprehension `{img.id: img for img in sw_images}`: on duplicate
ids the later entry wins, hence the reversed search. -/
def lookupSwImage (images : List SwImageDesc) (i : String) : Option SwImageDesc :=
  images.reverse.find? (fun img => img.id == i)

/-- Step 3 of `build_app_descriptor_from_repo_payload`: plug the looked-up
`SwImageDesc` into a container, leaving it unresolved (`none`) when the
image identifier is absent or unknown. -/
def resolveOsContainer (images : List SwImageDesc) (oc : RawOsContainer) : OsContainerDesc :=
  { osContainerDescId := oc.osContainerDescId
    requestedCpuResources := oc.requestedCpuResources
    cpuResourceLimit := oc.cpuResourceLimit
    requestedMemoryResource := oc.requestedMemoryResource
    memoryResourceLimit := oc.memoryResourceLimit
    swImageDesc :=
      match oc.swImageDesc with
      | some i => lookupSwImage images i
      | none => none }

/-- The dict `os_container_by_id` (later duplicate ids win). -/
def lookupOsContainer (ocs : List OsContainerDesc) (i : String) : Option OsContainerDesc :=
  ocs.reverse.find? (fun oc => oc.osContainerDescId == i)

/-- The inner loop of step 4: append each looked-up container, silently
skipping identifiers that are not in `os_container_by_id`. -/
def resolveContainerIds (ocs : List OsContainerDesc) : List String → List OsContainerDesc
  | [] => []
  | i :: rest =>
    match lookupOsContainer ocs i with
    | some oc => oc :: resolveContainerIds ocs rest
    | none => resolveContainerIds ocs rest

/-- Step 4: replace a VDU's container identifier list with the looked-up
objects. -/
def resolveVDU (ocs : List OsContainerDesc) (v : RawVDU) : VDU :=
  { vduId := v.vduId
    name := v.name
    osContainerDesc := resolveContainerIds ocs v.osContainerDesc }

/-- Step 7's alias fix: `istantiationLevel` is renamed to
`instantiationLevel` when the canonical key is absent. -/
def resolveDeploymentFlavour (df : RawDeploymentFlavour) : DeploymentFlavour :=
  { flavourId := df.flavourId
    instantiationLevel :=
      match df.instantiationLevel with
      | some v => some v
      | none => df.istantiationLevel }

/-- `build_app_descriptor_from_repo_payload`: required scalar fields first
(KeyError when absent), then images, containers, units, in that order. -/
def buildAppDescriptorFromRepoPayload (p : RawPayload) : Except SchemaError AppDescriptor := do
  let descriptorId ← requireField "appDescriptorId" p.appDescriptorId
  let invariantId ← requireField "appDescriptorExtInvariantId" p.appDescriptorExtInvariantId
  let provider ← requireField "appProvider" p.appProvider
  let productName ← requireField "appProductName" p.appProductName
  let softwareVersion ← requireField "appSoftwareVersion" p.appSoftwareVersion
  let descriptorVersion ← requireField "appDescriptorVersion" p.appDescriptorVersion
  let swImages := p.swImageDesc.getD []
  let osContainers := (p.osContainerDesc.getD []).map (resolveOsContainer swImages)
  let vdus := (p.vdu.getD []).map (resolveVDU osContainers)
  let extCpds := p.appExtCpd.getD []
  let vcpds := p.virtualCpd.getD []
  let flavours := (p.deploymentFlavour.getD []).map resolveDeploymentFlavour
  return { appDescriptorId := descriptorId
           appDescriptorExtInvariantId := invariantId
           appProvider := provider
           appProductName := productName
           appSoftwareVersion := softwareVersion
           appDescriptorVersion := descriptorVersion
           appmInfo := p.appmInfo
           swImageDesc := if swImages.isEmpty then none else some swImages
           vdu := if vdus.isEmpty then none else some vdus
           deploymentFlavour := if flavours.isEmpty then none else some flavours
           appExtCpd := if extCpds.isEmpty then none else some extCpds
           virtualCpd := if vcpds.isEmpty then none else some vcpds }

/-! ## CAMARA target schema (`app/models/camara_models.py` shapes, as
populated by `build_camara_app_manifest`) -/

/-- Modelled from the spec: the CAMARA `Protocol` enumeration lives in
`app/models/camara_models.py`, which is not under `src/`; the spec describes
a fixed protocol set with an explicit "unknown protocol to wildcard"
fallback, so the members are `TCP`, `UDP` and the `ANY` wildcard. -/
inductive Protocol where
  | TCP
  | UDP
  | ANY
deriving DecidableEq, Repr

/-- `camara.Protocol[name]`: lookup by member name, `KeyError` as `none`. -/
def protocolFromName (s : String) : Option Protocol :=
  if s = "TCP" then some .TCP
  else if s = "UDP" then some .UDP
  else if s = "ANY" then some .ANY
  else none

inductive VisibilityType where
  | VISIBILITY_INTERNAL
  | VISIBILITY_EXTERNAL
deriving DecidableEq, Repr

inductive PackageType where
  | CONTAINER
deriving DecidableEq, Repr

inductive RepoType where
  | PUBLICREPO
  | PRIVATEREPO
deriving DecidableEq, Repr

structure NetworkInterface where
  interfaceId : String
  protocol : Protocol
  port : Int
  visibilityType : VisibilityType
deriving DecidableEq, Repr

structure ComponentSpecItem where
  componentName : String
  networkInterfaces : List NetworkInterface
deriving DecidableEq, Repr

structure AppRepo where
  type : RepoType
  imagePath : String
  userName : Option String
  credentials : Option String
  authType : Option String
  checksum : Option String
deriving DecidableEq, Repr

structure Topology where
  minNumberOfNodes : Int
  minNodeCpu : Int
  minNodeMemory : Int
deriving DecidableEq, Repr

structure CpuPool where
  numCPU : Int
  memory : Int
  topology : Topology
deriving DecidableEq, Repr

/-- The populated slice of `RequiredResources` / `KubernetesResources`. -/
structure KubernetesResources where
  infraKind : String
  cpuPool : CpuPool
  isStandalone : Bool
deriving DecidableEq, Repr

structure AppManifest where
  appId : Option String
  name : String
  appProvider : String
  version : String
  packageType : PackageType
  appRepo : AppRepo
  requiredResources : KubernetesResources
  componentSpec : List ComponentSpecItem
deriving DecidableEq, Repr

/-! ## Manifest builder (`eaas2camara_builder.py`, `build_camara_app_manifest`) -/

/-- Python's default `strip` whitespace set. -/
def isPyWhitespace (c : Char) : Bool :=
  c = ' ' || c = '\t' || c = '\n' || c = '\r' || c = '\x0b' || c = '\x0c'

/-- `s.strip()` on the character list: drop whitespace from both ends. -/
def trimL (s : List Char) : List Char :=
  ((s.dropWhile isPyWhitespace).reverse.dropWhile isPyWhitespace).reverse

/-- One character of `s.upper()` (ASCII range). -/
def upperChar (c : Char) : Char :=
  if 'a' ≤ c && c ≤ 'z' then Char.ofNat (c.toNat - 32) else c

/-- `s.upper()`. -/
def pyUpper (s : String) : String :=
  ⟨s.data.map upperChar⟩

/-- Python's `a or b` on a None-able string: `None` and `""` are falsy. -/
def pyOrS (a : Option String) (b : String) : String :=
  match a with
  | some s => if s = "" then b else s
  | none => b

/-- The body of the resource double loop (lines 133-145): CPU prefers the
request and falls back to the limit; memory prefers the limit and falls back
to the request; both only on `None`. -/
def aggregateStep (acc : Int × Int) (oc : OsContainerDesc) : Int × Int :=
  (match oc.requestedCpuResources with
   | some r => acc.1 + r
   | none =>
     match oc.cpuResourceLimit with
     | some l => acc.1 + l
     | none => acc.1,
   match oc.memoryResourceLimit with
   | some l => acc.2 + l
   | none =>
     match oc.requestedMemoryResource with
     | some r => acc.2 + r
     | none => acc.2)

/-- The accumulated `(total_cpu, total_mem)` before the floor substitution. -/
def rawTotals (vdus : List VDU) : Int × Int :=
  vdus.foldl (fun acc v => v.osContainerDesc.foldl aggregateStep acc) (0, 0)

/-- The `vcpd_by_vdu_id` map, read back at key `vduId`: one entry per
occurrence of `vduId` in a connection point's owner list, in iteration
order. -/
def vcpdsForVdu (vcpds : List VirtualCpd) (vduId : String) : List VirtualCpd :=
  vcpds.flatMap (fun vc => ((vc.vdu.getD []).filter (fun i => i == vduId)).map (fun _ => vc))

/-- Protocol resolution for one port binding (lines 198-215): a falsy
protocol defaults to `"TCP"`, the upper-cased name is looked up in
`camara.Protocol`, and an unknown name falls back to `ANY` with a logged
warning (the returned Bool). -/
def resolveProtocol (proto : Option String) : Protocol × Bool :=
  let protocolStr :=
    match proto with
    | some s => if s = "" then "TCP" else s
    | none => "TCP"
  match protocolFromName (pyUpper protocolStr) with
  | some p => (p, false)
  | none => (Protocol.ANY, true)

/-- One derived network interface for port binding `pd` of connection point
`vc` on unit `v`. -/
def buildNetworkInterface (v : VDU) (vc : VirtualCpd) (pd : PortData) : NetworkInterface :=
  { interfaceId := sanitizeInterfaceId (pyOrS pd.name (v.vduId ++ "_" ++ vc.cpdId))
    protocol := (resolveProtocol pd.protocol).1
    port := pd.port
    visibilityType := .VISIBILITY_INTERNAL }

/-- All network interfaces derived for one unit. -/
def interfacesForVdu (vcpds : List VirtualCpd) (v : VDU) : List NetworkInterface :=
  (vcpdsForVdu vcpds v.vduId).flatMap (fun vc =>
    (vc.additionalServiceData.getD []).flatMap (fun asd =>
      (asd.portData.getD []).map (buildNetworkInterface v vc)))

/-- The component list before the placeholder fallback: units that derive no
network interfaces are omitted. -/
def derivedComponents (d : AppDescriptor) : List ComponentSpecItem :=
  (d.vdu.getD []).filterMap (fun v =>
    let netifs := interfacesForVdu (d.virtualCpd.getD []) v
    if netifs.isEmpty then none
    else some { componentName := sanitizeComponentName (pyOrS v.name v.vduId)
                networkInterfaces := netifs })

/-- The image name `getattr(img, "swImage", None) or getattr(img, "name", "app")`. -/
def imageNameOf (img : SwImageDesc) : String :=
  match img.swImage with
  | some s => if s = "" then img.name.getD "app" else s
  | none => img.name.getD "app"

/-- `build_camara_app_manifest`. -/
def buildCamaraAppManifest (d : AppDescriptor) : AppManifest :=
  let imageName :=
    match d.swImageDesc with
    | some (img :: _) => imageNameOf img
    | _ => "app"
  let imageVersion :=
    match d.swImageDesc with
    | some (img :: _) => img.version.getD "latest"
    | _ => "latest"
  let raw := rawTotals (d.vdu.getD [])
  let totalCpu := if raw.1 ≤ 0 then 1 else raw.1
  let totalMem := if raw.2 ≤ 0 then 1024 else raw.2
  let comps := derivedComponents d
  { appId := none
    name := sanitizeAppName d.appProductName
    appProvider := sanitizeAppProvider d.appProvider
    version := d.appSoftwareVersion
    packageType := .CONTAINER
    appRepo :=
      { type := .PUBLICREPO
        imagePath := "docker.io/library/" ++ imageName ++ ":" ++ imageVersion
        userName := none
        credentials := none
        authType := none
        checksum := none }
    requiredResources :=
      { infraKind := "kubernetes"
        cpuPool :=
          { numCPU := totalCpu
            memory := totalMem
            topology :=
              { minNumberOfNodes := 1
                minNodeCpu := max 1 totalCpu
                minNodeMemory := totalMem } }
        isStandalone := true }
    componentSpec :=
      if comps.isEmpty then
        [{ componentName := sanitizeComponentName d.appProductName
           networkInterfaces := [] }]
      else comps }

/-! ## Status mapper (`eaas_router.py`, `map_camara_status_to_state`) -/

inductive AppInstanceInstantiationState where
  | INSTANTIATED
  | INSTANTIATING
  | NOT_INSTANTIATED
  | FAILED
deriving DecidableEq, Repr

def instantiatedTokens : List String :=
  ["INSTANTIATED", "RUNNING", "READY", "STARTED", "ACTIVE"]

def instantiatingTokens : List String :=
  ["INSTANTIATING", "CREATING", "PROVISIONING", "DEPLOYING", "STARTING", "PENDING"]

def notInstantiatedTokens : List String :=
  ["NOT_INSTANTIATED", "TERMINATED", "STOPPED", "DELETED", "REMOVED", "INACTIVE"]

def failedTokens : List String :=
  ["FAILED", "ERROR", "FAILURE"]

/-- `str(raw_status).strip().upper()`. -/
def normalizeStatus (s : String) : String :=
  pyUpper ⟨trimL s.data⟩

/-- `map_camara_status_to_state`: `None` and unrecognized tokens raise
`ValueError` (the spec's `UnmappedStatusError`); never defaults silently. -/
def mapCamaraStatusToState : Option String → Except String AppInstanceInstantiationState
  | none => .error "Missing status"
  | some raw =>
    let s := normalizeStatus raw
    if s ∈ instantiatedTokens then .ok .INSTANTIATED
    else if s ∈ instantiatingTokens then .ok .INSTANTIATING
    else if s ∈ notInstantiatedTokens then .ok .NOT_INSTANTIATED
    else if s ∈ failedTokens then .ok .FAILED
    else .error "Unsupported status from CAMARA"

/-! ## Credential cache (`token_manager.py`, `TokenManager`)

The cache is modelled at a single instant `now`; the refresh exchange's
outcome is passed in as `TokenResponse` (the network round trip itself is
outside the embedding).  The lock-guarded double-check re-reads the same
state at the same instant, so the sequential model takes the refresh path
exactly when `_is_valid()` is false. -/

structure TokenConfig where
  refreshSkewSeconds : Int
deriving DecidableEq, Repr

/-- The mutable pair `_access_token` / `_expires_at`. -/
structure TokenState where
  accessToken : Option String
  expiresAt : Int
deriving DecidableEq, Repr

/-- What the token endpoint answered: a non-200 response, or a 200 whose
JSON body may lack `access_token` (`expires_in` defaults to 60). -/
inductive TokenResponse where
  | httpError (statusCode : Int) (text : String)
  | success (accessToken : Option String) (expiresIn : Option Int)
deriving DecidableEq, Repr

/-- `TokenManager._is_valid`. -/
def isValidToken (cfg : TokenConfig) (st : TokenState) (now : Int) : Bool :=
  st.accessToken.isSome && decide (now < st.expiresAt - cfg.refreshSkewSeconds)

/-- `TokenManager._refresh`: raises on non-200 or missing/falsy
`access_token`; otherwise stores the token and `now + expires_in`. -/
def refreshToken (now : Int) (resp : TokenResponse) : Except String TokenState :=
  match resp with
  | .httpError code _ => .error ("Token request failed: " ++ toString code)
  | .success tok expiresIn =>
    match tok with
    | none => .error "Token response missing access_token"
    | some t =>
      if t = "" then .error "Token response missing access_token"
      else .ok { accessToken := some t, expiresAt := now + expiresIn.getD 60 }

/-- `TokenManager.get_token`: returns the token, the state after the call,
and whether a refresh exchange was performed. -/
def getToken (cfg : TokenConfig) (st : TokenState) (now : Int) (resp : TokenResponse) :
    Except String (String × TokenState × Bool) :=
  if isValidToken cfg st now then
    .ok (st.accessToken.getD "", st, false)
  else
    match refreshToken now resp with
    | .error e => .error e
    | .ok st' => .ok (st'.accessToken.getD "", st', true)

/-! ## Theorems about the resolver -/

/-- C5: when any of the six required top-level scalar fields is absent from
the raw payload, resolution fails with a `SchemaError` instead of producing
a resolved descriptor. -/
theorem resolve_missing_required_field_fails (p : RawPayload)
    (h : p.appDescriptorId = none ∨ p.appDescriptorExtInvariantId = none ∨
         p.appProvider = none ∨ p.appProductName = none ∨
         p.appSoftwareVersion = none ∨ p.appDescriptorVersion = none) :
    ∃ e, buildAppDescriptorFromRepoPayload p = .error e := by
  unfold buildAppDescriptorFromRepoPayload
  cases hA : p.appDescriptorId <;> cases hB : p.appDescriptorExtInvariantId <;>
    cases hC : p.appProvider <;> cases hD : p.appProductName <;>
      cases hE : p.appSoftwareVersion <;> cases hF : p.appDescriptorVersion <;>
        first
        | exact ⟨_, rfl⟩
        | simp_all

/-- A raw payload with every key absent. -/
def emptyRawPayload : RawPayload :=
  { appDescriptorId := none, appDescriptorExtInvariantId := none, appProvider := none,
    appProductName := none, appSoftwareVersion := none, appDescriptorVersion := none,
    appmInfo := none, swImageDesc := none, osContainerDesc := none, vdu := none,
    appExtCpd := none, virtualCpd := none, deploymentFlavour := none }

/-- Witness for C5: resolving a payload with no keys at all fails. -/
theorem resolve_missing_required_field_fails_witness :
    ∃ e, buildAppDescriptorFromRepoPayload emptyRawPayload = .error e :=
  resolve_missing_required_field_fails emptyRawPayload (Or.inl rfl)

/-- C6: resolution replaces each unit's container identifier list with the
looked-up container objects, silently dropping every identifier not found in
the container collection; a container whose image identifier is unknown
resolves with its image left unresolved; and building from a descriptor
whose image collection is empty still succeeds, using the fixed placeholder
image reference. -/
theorem resolution_drops_unknown_references (ocs : List OsContainerDesc)
    (ids : List String) (images : List SwImageDesc) (oc : RawOsContainer)
    (d : AppDescriptor) :
    resolveContainerIds ocs ids = ids.filterMap (lookupOsContainer ocs) ∧
    (∀ i, oc.swImageDesc = some i → lookupSwImage images i = none →
      (resolveOsContainer images oc).swImageDesc = none) ∧
    ((d.swImageDesc = none ∨ d.swImageDesc = some []) →
      (buildCamaraAppManifest d).appRepo.imagePath = "docker.io/library/app:latest") := by
  refine ⟨?_, ?_, ?_⟩
  · induction ids with
    | nil => rfl
    | cons i rest ih =>
      unfold resolveContainerIds
      rw [List.filterMap_cons]
      cases lookupOsContainer ocs i <;> simp [ih]
  · intro i hi hlook
    unfold resolveOsContainer
    simp [hi, hlook]
  · rintro (h | h) <;> simp [buildCamaraAppManifest, h]

/-! ## Theorems about the manifest builder -/

/-- C7: resource aggregation never fails: a zero-or-negative accumulated CPU
total is replaced by the floor 1 and a zero-or-negative memory total by the
floor 1024, so the manifest's resource pool is strictly positive in both
dimensions. -/
theorem resource_totals_floored (d : AppDescriptor) :
    0 < (buildCamaraAppManifest d).requiredResources.cpuPool.numCPU ∧
    0 < (buildCamaraAppManifest d).requiredResources.cpuPool.memory ∧
    (buildCamaraAppManifest d).requiredResources.cpuPool.numCPU =
      (if (rawTotals (d.vdu.getD [])).1 ≤ 0 then 1 else (rawTotals (d.vdu.getD [])).1) ∧
    (buildCamaraAppManifest d).requiredResources.cpuPool.memory =
      (if (rawTotals (d.vdu.getD [])).2 ≤ 0 then 1024 else (rawTotals (d.vdu.getD [])).2) := by
  have hcpu : (buildCamaraAppManifest d).requiredResources.cpuPool.numCPU =
      (if (rawTotals (d.vdu.getD [])).1 ≤ 0 then 1 else (rawTotals (d.vdu.getD [])).1) := rfl
  have hmem : (buildCamaraAppManifest d).requiredResources.cpuPool.memory =
      (if (rawTotals (d.vdu.getD [])).2 ≤ 0 then 1024 else (rawTotals (d.vdu.getD [])).2) := rfl
  refine ⟨?_, ?_, hcpu, hmem⟩
  · rw [hcpu]
    by_cases h : (rawTotals (d.vdu.getD [])).1 ≤ 0
    · rw [if_pos h]
      omega
    · rw [if_neg h]
      omega
  · rw [hmem]
    by_cases h : (rawTotals (d.vdu.getD [])).2 ≤ 0
    · rw [if_pos h]
      omega
    · rw [if_neg h]
      omega

/-- C3: the built manifest always has at least one component: units that
derive no network interfaces are omitted (every surviving derived component
has a nonempty interface list); if that leaves zero components, exactly one
placeholder named after the sanitized product name, with an empty interface
list, is substituted; otherwise the derived list is used as-is. -/
theorem componentSpec_never_empty (d : AppDescriptor) :
    1 ≤ (buildCamaraAppManifest d).componentSpec.length ∧
    (∀ comp ∈ derivedComponents d, comp.networkInterfaces ≠ []) ∧
    (derivedComponents d = [] →
      (buildCamaraAppManifest d).componentSpec =
        [{ componentName := sanitizeComponentName d.appProductName
           networkInterfaces := [] }]) ∧
    (derivedComponents d ≠ [] →
      (buildCamaraAppManifest d).componentSpec = derivedComponents d) := by
  have hcs : (buildCamaraAppManifest d).componentSpec =
      if (derivedComponents d).isEmpty then
        [{ componentName := sanitizeComponentName d.appProductName
           networkInterfaces := [] }]
      else derivedComponents d := rfl
  refine ⟨?_, ?_, ?_, ?_⟩
  · rw [hcs]
    by_cases h : (derivedComponents d).isEmpty
    · rw [if_pos h]
      simp
    · rw [if_neg h]
      have : derivedComponents d ≠ [] := by
        intro hnil
        exact h (by rw [hnil]; rfl)
      have hlen : 0 < (derivedComponents d).length := List.length_pos.mpr this
      omega
  · intro comp hcomp
    unfold derivedComponents at hcomp
    rcases List.mem_filterMap.mp hcomp with ⟨v, _, hv⟩
    by_cases hne : (interfacesForVdu (d.virtualCpd.getD []) v).isEmpty
    · rw [if_pos hne] at hv
      cases hv
    · rw [if_neg hne] at hv
      injection hv with hv
      subst hv
      intro hnil
      exact hne (by rw [List.isEmpty_iff]; exact hnil)
  · intro h
    rw [hcs, if_pos (by rw [h]; rfl)]
  · intro h
    rw [hcs, if_neg (by rw [List.isEmpty_iff]; exact h)]

/-- C10: a port binding whose protocol is absent, `None`, or the empty
string is defaulted to TCP, without the warning; the ANY wildcard fallback
(with its warning) fires only for a present protocol string whose
upper-cased value is not a member of the fixed protocol set. -/
theorem protocol_fallback_policy (proto : Option String) :
    ((proto = none ∨ proto = some "") → resolveProtocol proto = (Protocol.TCP, false)) ∧
    (∀ s, proto = some s → s ≠ "" →
      resolveProtocol proto =
        (match protocolFromName (pyUpper s) with
         | some p => (p, false)
         | none => (Protocol.ANY, true))) := by
  constructor
  · rintro (rfl | rfl) <;> decide
  · rintro s rfl hs
    simp only [resolveProtocol]
    rw [if_neg hs]

/-! ## C1: the aggregation policy, corrected -/

/-- The per-container CPU figure the code actually accumulates: prefer the
request; fall back to the limit only when the request is absent. -/
def containerCpu (oc : OsContainerDesc) : Int :=
  match oc.requestedCpuResources with
  | some r => r
  | none => oc.cpuResourceLimit.getD 0

/-- The per-container memory figure the code actually accumulates: prefer
the limit; fall back to the request only when the limit is absent. -/
def containerMem (oc : OsContainerDesc) : Int :=
  match oc.memoryResourceLimit with
  | some l => l
  | none => oc.requestedMemoryResource.getD 0

theorem aggregateStep_eq (acc : Int × Int) (oc : OsContainerDesc) :
    aggregateStep acc oc = (acc.1 + containerCpu oc, acc.2 + containerMem oc) := by
  unfold aggregateStep containerCpu containerMem
  cases h1 : oc.requestedCpuResources <;> cases h2 : oc.cpuResourceLimit <;>
    cases h3 : oc.memoryResourceLimit <;> cases h4 : oc.requestedMemoryResource <;>
      simp

theorem foldl_aggregateStep (ocs : List OsContainerDesc) (acc : Int × Int) :
    ocs.foldl aggregateStep acc =
      (acc.1 + (ocs.map containerCpu).sum, acc.2 + (ocs.map containerMem).sum) := by
  induction ocs generalizing acc with
  | nil => simp
  | cons oc rest ih =>
    rw [List.foldl_cons, aggregateStep_eq, ih]
    simp only [List.map_cons, List.sum_cons, Prod.mk.injEq]
    constructor <;> ring

theorem foldl_vdus_aggregate (vdus : List VDU) (acc : Int × Int) :
    vdus.foldl (fun a v => v.osContainerDesc.foldl aggregateStep a) acc =
      (acc.1 + ((vdus.flatMap (·.osContainerDesc)).map containerCpu).sum,
       acc.2 + ((vdus.flatMap (·.osContainerDesc)).map containerMem).sum) := by
  induction vdus generalizing acc with
  | nil => simp
  | cons v rest ih =>
    rw [List.foldl_cons, ih, foldl_aggregateStep]
    simp only [List.flatMap_cons, List.map_append, List.sum_append, Prod.mk.injEq]
    constructor <;> ring

/-- The aggregation policy exactly as claim C1 words it, written from the
spec for comparison with the code's `rawTotals`: prefer the explicit limit
for both CPU and memory, falling back to the request only when the limit is
absent or non-positive. -/
def specClaimCpu (oc : OsContainerDesc) : Int :=
  match oc.cpuResourceLimit with
  | some l => if l ≤ 0 then oc.requestedCpuResources.getD 0 else l
  | none => oc.requestedCpuResources.getD 0

/-- Memory half of the claimed (limit-preferring, positivity-checking)
policy. -/
def specClaimMem (oc : OsContainerDesc) : Int :=
  match oc.memoryResourceLimit with
  | some l => if l ≤ 0 then oc.requestedMemoryResource.getD 0 else l
  | none => oc.requestedMemoryResource.getD 0

/-- Totals under the claimed policy. -/
def specClaimTotals (vdus : List VDU) : Int × Int :=
  (((vdus.flatMap (·.osContainerDesc)).map specClaimCpu).sum,
   ((vdus.flatMap (·.osContainerDesc)).map specClaimMem).sum)

/-- A unit with one container carrying both a CPU request (1) and a CPU
limit (2), and one carrying a zero memory limit next to a positive memory
request. -/
def cexVdu : VDU :=
  { vduId := "u1", name := some "web",
    osContainerDesc :=
      [ { osContainerDescId := "c1", requestedCpuResources := some 1,
          cpuResourceLimit := some 2, requestedMemoryResource := some 256,
          memoryResourceLimit := some 512, swImageDesc := none },
        { osContainerDescId := "c2", requestedCpuResources := none,
          cpuResourceLimit := none, requestedMemoryResource := some 256,
          memoryResourceLimit := some 0, swImageDesc := none } ] }

/-- C1 as stated fails on the code: the code totals (1, 512): CPU takes the
request 1, not the limit 2, and the zero memory limit is added rather than
replaced by the request; the claimed limit-preferring policy totals
(2, 768). -/
theorem aggregation_policy_counterexample :
    rawTotals [cexVdu] = (1, 512) ∧ specClaimTotals [cexVdu] = (2, 768) ∧
    rawTotals [cexVdu] ≠ specClaimTotals [cexVdu] := by
  decide

/-- C1 amended: the aggregation accumulates CPU and memory independently
over every container of every unit, but prefers the CPU request (falling
back to the CPU limit only when the request is absent) and the memory limit
(falling back to the memory request only when the limit is absent); absence
means the field is None, and non-positive present values are accumulated
as-is. -/
theorem aggregation_policy_amended (vdus : List VDU) :
    (rawTotals vdus).1 = ((vdus.flatMap (·.osContainerDesc)).map containerCpu).sum ∧
    (rawTotals vdus).2 = ((vdus.flatMap (·.osContainerDesc)).map containerMem).sum := by
  unfold rawTotals
  rw [foldl_vdus_aggregate]
  constructor <;> simp

/-! ## Theorems about the status mapper -/

/-- C4: after case and whitespace normalization, classification returns each
canonical state exactly on its fixed token set, and fails exactly when the
input is absent or its normalization belongs to none of the sets; it never
silently defaults to a state. -/
theorem classify_exact (x : Option String) :
    (mapCamaraStatusToState x = .ok .INSTANTIATED ↔
      ∃ s, x = some s ∧ normalizeStatus s ∈ instantiatedTokens) ∧
    (mapCamaraStatusToState x = .ok .INSTANTIATING ↔
      ∃ s, x = some s ∧ normalizeStatus s ∈ instantiatingTokens) ∧
    (mapCamaraStatusToState x = .ok .NOT_INSTANTIATED ↔
      ∃ s, x = some s ∧ normalizeStatus s ∈ notInstantiatedTokens) ∧
    (mapCamaraStatusToState x = .ok .FAILED ↔
      ∃ s, x = some s ∧ normalizeStatus s ∈ failedTokens) ∧
    ((∃ e, mapCamaraStatusToState x = .error e) ↔
      x = none ∨ ∃ s, x = some s ∧
        normalizeStatus s ∉ instantiatedTokens ∧
        normalizeStatus s ∉ instantiatingTokens ∧
        normalizeStatus s ∉ notInstantiatedTokens ∧
        normalizeStatus s ∉ failedTokens) := by
  have d12 : ∀ t ∈ instantiatingTokens, t ∉ instantiatedTokens := by decide
  have d13 : ∀ t ∈ notInstantiatedTokens, t ∉ instantiatedTokens := by decide
  have d14 : ∀ t ∈ failedTokens, t ∉ instantiatedTokens := by decide
  have d23 : ∀ t ∈ notInstantiatedTokens, t ∉ instantiatingTokens := by decide
  have d24 : ∀ t ∈ failedTokens, t ∉ instantiatingTokens := by decide
  have d34 : ∀ t ∈ failedTokens, t ∉ notInstantiatedTokens := by decide
  cases x with
  | none => simp [mapCamaraStatusToState]
  | some s =>
    by_cases h1 : normalizeStatus s ∈ instantiatedTokens <;>
      by_cases h2 : normalizeStatus s ∈ instantiatingTokens <;>
        by_cases h3 : normalizeStatus s ∈ notInstantiatedTokens <;>
          by_cases h4 : normalizeStatus s ∈ failedTokens <;>
            first
            | exact absurd h1 (d12 _ h2)
            | exact absurd h1 (d13 _ h3)
            | exact absurd h1 (d14 _ h4)
            | exact absurd h2 (d23 _ h3)
            | exact absurd h2 (d24 _ h4)
            | exact absurd h3 (d34 _ h4)
            | simp [mapCamaraStatusToState, h1, h2, h3, h4]

/-! ## Theorems about the credential cache -/

/-- C9: when a token is cached and the current instant is before the
recorded expiry minus the skew, `get_token` returns the cached token,
performs no refresh exchange, and leaves the cached state unchanged. -/
theorem getToken_valid_serves_cache (cfg : TokenConfig) (st : TokenState) (now : Int)
    (resp : TokenResponse) (h : isValidToken cfg st now = true) :
    getToken cfg st now resp = .ok (st.accessToken.getD "", st, false) := by
  unfold getToken
  rw [if_pos h]

/-- Witness for C9 at a concrete valid cache (token present, expiry 100,
skew 30, now 0); the supplied response is an HTTP failure, which a cache hit
never consults. -/
theorem getToken_valid_serves_cache_witness :
    getToken ⟨30⟩ ⟨some "tok", 100⟩ 0 (.httpError 500 "boom") =
      .ok ("tok", ⟨some "tok", 100⟩, false) :=
  getToken_valid_serves_cache ⟨30⟩ ⟨some "tok", 100⟩ 0 (.httpError 500 "boom") (by decide)

/-- C8 as stated fails on the code: with skew 30, an empty cache, and a
refresh response carrying `expires_in = 10`, `get_token` returns
successfully at instant 1000 a token whose recorded expiry 1010 is less
than one skew window away. -/
theorem getToken_skew_counterexample :
    getToken ⟨30⟩ ⟨none, 0⟩ 1000 (.success (some "tok") (some 10)) =
      .ok ("tok", ⟨some "tok", 1010⟩, true) ∧
    ¬ (1000 + (30 : Int) ≤ (1010 : Int)) :=
  ⟨rfl, by decide⟩

/-- C8 amended: a successful `get_token` return leaves at least the skew
window before the recorded expiry, provided a successful refresh response
carries an `expires_in` (default 60) of at least the skew; the cached path
needs no proviso. -/
theorem getToken_skew_guarantee (cfg : TokenConfig) (st : TokenState) (now : Int)
    (resp : TokenResponse) (tok : String) (st' : TokenState) (didRefresh : Bool)
    (h : getToken cfg st now resp = .ok (tok, st', didRefresh))
    (hresp : ∀ t ei, resp = .success t ei → cfg.refreshSkewSeconds ≤ ei.getD 60) :
    now + cfg.refreshSkewSeconds ≤ st'.expiresAt := by
  unfold getToken at h
  by_cases hv : isValidToken cfg st now = true
  · rw [if_pos hv] at h
    simp only [Except.ok.injEq, Prod.mk.injEq] at h
    obtain ⟨-, hst, -⟩ := h
    subst hst
    have hlt : now < st.expiresAt - cfg.refreshSkewSeconds := by
      have := (Bool.and_eq_true _ _).mp hv
      exact of_decide_eq_true this.2
    omega
  · rw [if_neg hv] at h
    cases hr : refreshToken now resp with
    | error e =>
      rw [hr] at h
      cases h
    | ok stNew =>
      rw [hr] at h
      simp only [Except.ok.injEq, Prod.mk.injEq] at h
      obtain ⟨-, hst, -⟩ := h
      subst hst
      cases resp with
      | httpError code text => simp [refreshToken] at hr
      | success t ei =>
        cases t with
        | none => simp [refreshToken] at hr
        | some tk =>
          by_cases htk : tk = ""
          · simp [refreshToken, htk] at hr
          · simp only [refreshToken, htk, if_false, Except.ok.injEq] at hr
            subst hr
            have hski := hresp (some tk) ei rfl
            show now + cfg.refreshSkewSeconds ≤ now + ei.getD 60
            omega

/-- Witness for the amended C8 at skew 30, an empty cache, and a refresh
response with `expires_in = 60`. -/
theorem getToken_skew_guarantee_witness :
    (0 : Int) + (30 : Int) ≤ (60 : Int) :=
  getToken_skew_guarantee ⟨30⟩ ⟨none, 0⟩ 0 (.success (some "tok") (some 60)) "tok"
    ⟨some "tok", 60⟩ true rfl
    (by intro t ei h; cases h; decide)

end SouthBound
